import Mathlib

/-!
# Verification of the mitigation_service policy engine

A shallow embedding of the prompt-moderation service:

* `src/core/redactors.py` — the four regex redactors (`EmailRedactor`,
  `PhoneRedactor`, `SecretRedactor`, `CreditCardRedactor`), modelled as
  explicit left-to-right scanners over the character list with the same
  match/backtracking behaviour as the Python patterns (ASCII character
  classes; Python's `re` defaults to Unicode classes, but all of the data
  exercised here is ASCII).
* `src/core/policy.py` — the `Policy` class: rules loading, blocking,
  semantic blocking, redaction, and `evaluate_prompt`.  Python exceptions
  (`FileNotFoundError`, `json.JSONDecodeError`, `KeyError`,
  `AttributeError`/`TypeError` on a non-dict config) become an `Except`.
* `src/core/semantic.py` — `SemanticBlocker`; the sentence-transformers
  embedding provider is outside the repository and is abstracted as an
  optional scoring function (text ↦ best cosine similarity against the
  encoded banned phrases).
* `src/server.py` — the history deque (`deque(maxlen=100)`) and the
  `/reload` handler.
-/

/-! ## Character classes (ASCII approximations of the `re` classes) -/

/-- Python `\w` (ASCII part): letters, digits, underscore. -/
def isWordChar (c : Char) : Bool := c.isAlphanum || c == '_'

/-- The email local-part class `[a-zA-Z0-9_.+-]`. -/
def isLocalChar (c : Char) : Bool :=
  c.isAlphanum || c == '_' || c == '.' || c == '+' || c == '-'

/-- The email domain class `[a-zA-Z0-9-]`. -/
def isDomainChar (c : Char) : Bool := c.isAlphanum || c == '-'

/-- The email tail class `[a-zA-Z0-9-.]`. -/
def isTldChar (c : Char) : Bool := c.isAlphanum || c == '-' || c == '.'

/-- The credit-card separator class `[ -]`. -/
def isCardSep (c : Char) : Bool := c == ' ' || c == '-'

/-! ## Matchers

Each matcher tries to match its pattern at the head of the character list
and returns the remainder of the list after the match (`none` when the
pattern does not match at this position).  The Python patterns below are
deterministic once anchored at a start position: every bounded choice in
them (greedy `+` runs followed by a character outside the class, optional
separators, lazy separator runs that must end at a digit) admits exactly
one viable continuation, which the functions compute directly.
-/

/-- Match one literal character. -/
def expectChar (a : Char) : List Char → Option (List Char)
  | c :: cs => if c == a then some cs else none
  | [] => none

/-- Match a greedy, non-empty run of characters satisfying `p`
(a `[...]+` whose class excludes the character required next). -/
def dropRun1 (p : Char → Bool) : List Char → Option (List Char)
  | c :: cs => if p c then some (cs.dropWhile p) else none
  | [] => none

/-- Match exactly `n` digits (`\d{n}`). -/
def dropDigits : Nat → List Char → Option (List Char)
  | 0, cs => some cs
  | _ + 1, [] => none
  | n + 1, c :: cs => if c.isDigit then dropDigits n cs else none

/-- Match an optional phone separator (`[-.]?`).  Skipping a present
separator can never help: the next pattern element is `\d`. -/
def dropPhoneSep : List Char → List Char
  | c :: cs => if c == '-' || c == '.' then cs else c :: cs
  | [] => []

/-- `\b` immediately after a digit: true iff the rest is empty or starts
with a non-word character. -/
def breakAfter : List Char → Bool
  | [] => true
  | c :: _ => !isWordChar c

/-- `[a-zA-Z0-9_.+-]+@[a-zA-Z0-9-]+\.[a-zA-Z0-9-.]+` anchored at the head. -/
def emailMatch (cs : List Char) : Option (List Char) :=
  (dropRun1 isLocalChar cs).bind fun r1 =>
  (expectChar '@' r1).bind fun r2 =>
  (dropRun1 isDomainChar r2).bind fun r3 =>
  (expectChar '.' r3).bind fun r4 =>
  dropRun1 isTldChar r4

/-- `\d{3}[-.]?\d{3}[-.]?\d{4}\b` anchored at the head (the leading `\b`
is handled by the scanner). -/
def phoneMatch (cs : List Char) : Option (List Char) :=
  (dropDigits 3 cs).bind fun r1 =>
  (dropDigits 3 (dropPhoneSep r1)).bind fun r3 =>
  (dropDigits 4 (dropPhoneSep r3)).bind fun r5 =>
  if breakAfter r5 then some r5 else none

/-- `SECRET\{[^}]*\}` anchored at the head. -/
def secretMatch (cs : List Char) : Option (List Char) :=
  (expectChar 'S' cs).bind fun r1 =>
  (expectChar 'E' r1).bind fun r2 =>
  (expectChar 'C' r2).bind fun r3 =>
  (expectChar 'R' r3).bind fun r4 =>
  (expectChar 'E' r4).bind fun r5 =>
  (expectChar 'T' r5).bind fun r6 =>
  (expectChar '{' r6).bind fun r7 =>
  expectChar '}' (r7.dropWhile (fun c => !(c == '}')))

/-- `k` iterations of `(?:\d[ -]*?)`: the lazy separator run between two
digits must consume exactly the separators standing between them, and the
run after the final digit stays empty (expanding it cannot restore the
`\b` that follows, since a separator is a non-word character). -/
def cardDigits : Nat → List Char → Option (List Char)
  | 0, cs => some cs
  | _ + 1, [] => none
  | 1, c :: cs => if c.isDigit then some cs else none
  | n + 2, c :: cs =>
    if c.isDigit then cardDigits (n + 1) (cs.dropWhile isCardSep) else none

/-- One candidate repetition count for `(?:\d[ -]*?){13,16}\b`. -/
def cardTry (k : Nat) (cs : List Char) : Option (List Char) :=
  (cardDigits k cs).bind fun r => if breakAfter r then some r else none

/-- `(?:\d[ -]*?){13,16}\b` anchored at the head: the greedy bounded
repetition tries 16 iterations first, then backtracks down to 13. -/
def cardMatch (cs : List Char) : Option (List Char) :=
  match cardTry 16 cs with
  | some r => some r
  | none =>
    match cardTry 15 cs with
    | some r => some r
    | none =>
      match cardTry 14 cs with
      | some r => some r
      | none => cardTry 13 cs

/-! ## Scanners

`re.sub` semantics: scan left to right; at each position try the pattern;
on a match emit the replacement and resume right after the matched span
(all the patterns here match at least one character); otherwise copy one
character.  The scanners for the two `\b`-anchored patterns carry whether
the previous character of the *original* text was a word character.  The
fuel argument is initialised to the length of the input and can never run
out, because every step consumes at least one character. -/

def emailSubAux : Nat → List Char → List Char
  | _, [] => []
  | 0, cs => cs
  | fuel + 1, c :: cs =>
    match emailMatch (c :: cs) with
    | some rest => "<EMAIL>".data ++ emailSubAux fuel rest
    | none => c :: emailSubAux fuel cs

def phoneSubAux : Nat → Bool → List Char → List Char
  | _, _, [] => []
  | 0, _, cs => cs
  | fuel + 1, prevW, c :: cs =>
    match (if prevW then none else phoneMatch (c :: cs)) with
    | some rest => "<PHONE>".data ++ phoneSubAux fuel true rest
    | none => c :: phoneSubAux fuel (isWordChar c) cs

def secretSubAux : Nat → List Char → List Char
  | _, [] => []
  | 0, cs => cs
  | fuel + 1, c :: cs =>
    match secretMatch (c :: cs) with
    | some rest => "<SECRET>".data ++ secretSubAux fuel rest
    | none => c :: secretSubAux fuel cs

def cardSubAux : Nat → Bool → List Char → List Char
  | _, _, [] => []
  | 0, _, cs => cs
  | fuel + 1, prevW, c :: cs =>
    match (if prevW then none else cardMatch (c :: cs)) with
    | some rest => "<CARD>".data ++ cardSubAux fuel true rest
    | none => c :: cardSubAux fuel (isWordChar c) cs

/-! ## The redactors (`src/core/redactors.py`) -/

/-- `EmailRedactor.redact_text`:
`re.sub(r"[a-zA-Z0-9_.+-]+@[a-zA-Z0-9-]+\.[a-zA-Z0-9-.]+", "<EMAIL>", text)`. -/
def EmailRedactor.redact_text (text : String) : String :=
  ⟨emailSubAux text.data.length text.data⟩

/-- `PhoneRedactor.redact_text`:
`re.sub(r'\b\d{3}[-.]?\d{3}[-.]?\d{4}\b', "<PHONE>", text)`. -/
def PhoneRedactor.redact_text (text : String) : String :=
  ⟨phoneSubAux text.data.length false text.data⟩

/-- `SecretRedactor.redact_text`:
`re.sub(r'SECRET\{[^}]*\}', "<SECRET>", text)`. -/
def SecretRedactor.redact_text (text : String) : String :=
  ⟨secretSubAux text.data.length text.data⟩

/-- `CreditCardRedactor.redact_text`:
`re.sub(r"\b(?:\d[ -]*?){13,16}\b", "<CARD>", text)`. -/
def CreditCardRedactor.redact_text (text : String) : String :=
  ⟨cardSubAux text.data.length false text.data⟩

/-! ## Small Python-semantics helpers -/

/-- Python `str.lower()` (ASCII letters). -/
def strLower (s : String) : String := ⟨s.data.map Char.toLower⟩

/-- Python substring membership `needle in hay`, computed over the
character lists. -/
def infixCheck (needle : List Char) : List Char → Bool
  | [] => needle.isEmpty
  | b :: bs => needle.isPrefixOf (b :: bs) || infixCheck needle bs

/-- Python `needle in hay` on strings. -/
def pyIn (needle hay : String) : Bool := infixCheck needle.data hay.data

/-- Python `repr` of a string as it appears inside an f-string rendering
of a list (quotes or escapes inside the string itself are not modelled;
no keyword or redactor name used by the service contains them). -/
def pyStrRepr (s : String) : String := "\x27" ++ s ++ "\x27"

/-- Python `str` of a list of strings, as rendered by an f-string. -/
def pyListRepr (xs : List String) : String :=
  "[" ++ String.intercalate ", " (xs.map pyStrRepr) ++ "]"

/-- Models Python `"%.2f"` formatting of the similarity score (rounds
half away from zero, whereas CPython rounds the underlying binary float
half to even; the difference is invisible for the values exercised
here). -/
def formatFixed2 (q : Rat) : String :=
  let cents : Int := ⌊|q| * 100 + 1 / 2⌋
  let n := cents.toNat
  (if q < 0 ∧ cents ≠ 0 then "-" else "") ++ toString (n / 100) ++ "." ++
    (if n % 100 < 10 then "0" else "") ++ toString (n % 100)

/-! ## Data model (`src/core/policy.py`, `src/core/semantic.py`,
`src/server.py`) -/

/-- The decision dict returned by `Policy.evaluate_prompt`. -/
structure Decision where
  action : String
  prompt_out : String
  reason : String
deriving DecidableEq

/-- The `redaction_rules` sub-dict of `policy.json`.  An absent key is
represented by the default that `config.get(key, False)` supplies, which
is observationally identical. -/
structure RedactionRules where
  redact_emails : Bool
  redact_phone_numbers : Bool
  redact_secrets : Bool
  redact_credit_cards : Bool
deriving DecidableEq

/-- The `semantic_blocking` sub-dict of `policy.json`.  Absent keys are
represented by the defaults `semantic_config.get` supplies (`False`,
`[]`, `0.6`), which is observationally identical. -/
structure SemanticBlockingConfig where
  enabled : Bool
  banned_phrases : List String
  threshold : Rat
deriving DecidableEq

/-- A parsed `policy.json` object.  `banned_keywords` stays an `Option`
because the code reads it with `self.rules["banned_keywords"]`, which
raises `KeyError` when the key is absent; `max_prompt_chars` is read with
`.get("max_prompt_chars", DEFAULT_MAX_CHARS)`. -/
structure Rules where
  banned_keywords : Option (List String)
  max_prompt_chars : Option Nat
  redaction_rules : RedactionRules
  semantic_blocking : SemanticBlockingConfig
deriving DecidableEq

/-- What `json.load` can leave in `self.rules`: a JSON object, or any
other successfully parsed JSON document (list, string, number, ...), on
which every later attribute access such as `self.rules.get` fails. -/
inductive RulesVal
  | dict (r : Rules)
  | nonDict
deriving DecidableEq

/-- The closed set of redactors `_configure_components` can install, in
the declaration order of `redactor_map`. -/
inductive RedactorKind
  | Email
  | Phone
  | Secret
  | CreditCard
deriving DecidableEq

/-- The dict key under which `_configure_components` stores the redactor
(recorded in `affected_types`). -/
def RedactorKind.name : RedactorKind → String
  | .Email => "Email"
  | .Phone => "Phone"
  | .Secret => "Secret"
  | .CreditCard => "CreditCard"

/-- Dispatch to the redactor's `redact_text`. -/
def RedactorKind.redact_text : RedactorKind → String → String
  | .Email => EmailRedactor.redact_text
  | .Phone => PhoneRedactor.redact_text
  | .Secret => SecretRedactor.redact_text
  | .CreditCard => CreditCardRedactor.redact_text

/-- `SemanticBlocker` (`src/core/semantic.py`).  The external
sentence-transformers model is out of the repository's scope; it is
abstracted as a scoring function text ↦ best cosine similarity against
the encoded banned phrases.  `model = none` is the unavailable provider
(import failure, or an exception while loading the model). -/
structure SemanticBlocker where
  banned_phrases : List String
  threshold : Rat
  model : Option Unit
  encoded_banned : Option (String → Rat)

/-- `SemanticBlocker.__init__`: on a successful load both `model` and
`encoded_banned` are set; on failure both stay `None`. -/
def SemanticBlocker.init (phrases : List String) (threshold : Rat)
    (provider : Option (String → Rat)) : SemanticBlocker :=
  match provider with
  | some f =>
    { banned_phrases := phrases, threshold := threshold,
      model := some (), encoded_banned := some f }
  | none =>
    { banned_phrases := phrases, threshold := threshold,
      model := none, encoded_banned := none }

/-- `SemanticBlocker.check_blocking`: fails open to `(False, 0.0)` when
the model or the cached embeddings are missing, otherwise compares the
best similarity score against the threshold. -/
def SemanticBlocker.check_blocking (b : SemanticBlocker) (text : String) :
    Bool × Rat :=
  match b.model, b.encoded_banned with
  | some _, some f => (decide (f text > b.threshold), f text)
  | _, _ => (false, 0)

/-- The mutable attributes of a `Policy` instance. -/
structure PolicyState where
  rules : RulesVal
  redactors : List RedactorKind
  semantic_blocker : Option SemanticBlocker

/-- What the policy file on disk can be at (re)load time. -/
inductive FileState
  | missing
  | invalidJson
  | parsedNonDict
  | parsedDict (r : Rules)
deriving DecidableEq

/-- The Python exceptions `load_policy` and `evaluate_prompt` can raise. -/
inductive PyErr
  | fileNotFound
  | jsonDecode
  | keyError (key : String)
  | nonDictConfig
deriving DecidableEq

/-- `str(e)` for the exceptions above (stand-ins for the CPython texts,
which depend on path and parse position). -/
def PyErr.str : PyErr → String
  | .fileNotFound => "[Errno 2] No such file or directory: \x27policy.json\x27"
  | .jsonDecode => "Expecting value: line 1 column 1 (char 0)"
  | .keyError key => "\x27" ++ key ++ "\x27"
  | .nonDictConfig => "\x27object\x27 has no attribute \x27get\x27"

deriving instance DecidableEq for Except

/-! ## The `Policy` class (`src/core/policy.py`) -/

def DEFAULT_MAX_CHARS : Nat := 200

/-- `Policy._configure_components`: install redactors for the enabled
toggles in `redactor_map` order, and the semantic blocker when
`semantic_blocking.enabled`.  `provider` is the environment's embedding
provider passed through to `SemanticBlocker.__init__`. -/
def Policy._configure_components (r : Rules)
    (provider : Option (String → Rat)) :
    List RedactorKind × Option SemanticBlocker :=
  let config := r.redaction_rules
  let redactors :=
    (if config.redact_emails then [RedactorKind.Email] else []) ++
    (if config.redact_phone_numbers then [RedactorKind.Phone] else []) ++
    (if config.redact_secrets then [RedactorKind.Secret] else []) ++
    (if config.redact_credit_cards then [RedactorKind.CreditCard] else [])
  let semantic_config := r.semantic_blocking
  let semantic_blocker :=
    if semantic_config.enabled then
      some (SemanticBlocker.init semantic_config.banned_phrases
        semantic_config.threshold provider)
    else none
  (redactors, semantic_blocker)

/-- `Policy.load_policy`: `self.rules = json.load(f)` happens before any
validation, so a missing file or a JSON syntax error (raised before the
assignment) leaves the state untouched, while a successfully parsed
non-object document replaces `self.rules` and only then raises (from
`len(...)` or `self.rules.get(...)`), leaving the old redactors and
semantic blocker in place. -/
def Policy.load_policy (s : PolicyState) (fs : FileState)
    (provider : Option (String → Rat)) : Except PyErr Unit × PolicyState :=
  match fs with
  | .missing => (.error .fileNotFound, s)
  | .invalidJson => (.error .jsonDecode, s)
  | .parsedNonDict => (.error .nonDictConfig, { s with rules := .nonDict })
  | .parsedDict r =>
    let comps := Policy._configure_components r provider
    (.ok (), { rules := .dict r, redactors := comps.1,
               semantic_blocker := comps.2 })

/-- `Policy._check_blocking`: length check first, then the banned-keyword
scan (`self.rules["banned_keywords"]` raises `KeyError` when absent). -/
def Policy._check_blocking (rules : RulesVal) (prompt : String) :
    Except PyErr (Option Decision) :=
  match rules with
  | .nonDict => .error .nonDictConfig
  | .dict r =>
    let max_prompt_chars := r.max_prompt_chars.getD DEFAULT_MAX_CHARS
    if prompt.length > max_prompt_chars then
      .ok (some ⟨"block", prompt,
        "Prompt is too long. Max length is " ++ toString max_prompt_chars
          ++ " characters."⟩)
    else
      match r.banned_keywords with
      | none => .error (.keyError "banned_keywords")
      | some kws =>
        let found := kws.filter fun k => pyIn (strLower k) (strLower prompt)
        if found.isEmpty then .ok none
        else .ok (some ⟨"block", prompt,
          "Contains banned keywords: " ++ pyListRepr found⟩)

/-- `Policy._check_semantic_blocking`. -/
def Policy._check_semantic_blocking (sb : Option SemanticBlocker)
    (prompt : String) : Option Decision :=
  match sb with
  | none => none
  | some b =>
    if (b.check_blocking prompt).1 then
      some ⟨"block", prompt,
        "Semantic Policy Violation (Similarity: "
          ++ formatFixed2 (b.check_blocking prompt).2 ++ ")"⟩
    else none

/-- The body of the redaction loop of `_apply_redaction`: the pair is
`(current_prompt, affected_types)`. -/
def redactStep (acc : String × List String) (rd : RedactorKind) :
    String × List String :=
  if rd.redact_text acc.1 ≠ acc.1 then (rd.redact_text acc.1, acc.2 ++ [rd.name])
  else (rd.redact_text acc.1, acc.2)

/-- `Policy._apply_redaction`: run the prompt through the active
redactors in order, recording the name of each redactor that changed the
text; return a redact decision iff the final text differs. -/
def Policy._apply_redaction (redactors : List RedactorKind)
    (prompt : String) : Option Decision :=
  if (redactors.foldl redactStep (prompt, [])).1 ≠ prompt then
    some ⟨"redact", (redactors.foldl redactStep (prompt, [])).1,
      "P.I.I. detected and redacted: "
        ++ pyListRepr (redactors.foldl redactStep (prompt, [])).2⟩
  else none

/-- The sequential composition of the configured redactors, in configured
order (the `current_prompt` loop inside `_apply_redaction`). -/
def redactionPipeline (redactors : List RedactorKind) (text : String) :
    String :=
  redactors.foldl (fun t rd => rd.redact_text t) text

/-- `Policy.evaluate_prompt`: hard blocks, then semantic blocking, then
redaction, then allow. -/
def Policy.evaluate_prompt (s : PolicyState) (prompt : String) :
    Except PyErr Decision :=
  match Policy._check_blocking s.rules prompt with
  | .error e => .error e
  | .ok (some d) => .ok d
  | .ok none =>
    match Policy._check_semantic_blocking s.semantic_blocker prompt with
    | some d => .ok d
    | none =>
      match Policy._apply_redaction s.redactors prompt with
      | some d => .ok d
      | none => .ok ⟨"allow", prompt, "Safe, no action required"⟩

/-- `Policy.evaluate_prompt` with the object state made explicit: the
method only ever reads `self.rules`, `self.semantic_blocker` and
`self.redactors`, so the state it leaves behind is the state it was
called on, in every branch. -/
def Policy.evaluatePromptWithState (s : PolicyState) (prompt : String) :
    Except PyErr (Decision × PolicyState) :=
  match Policy._check_blocking s.rules prompt with
  | .error e => .error e
  | .ok (some d) => .ok (d, s)
  | .ok none =>
    match Policy._check_semantic_blocking s.semantic_blocker prompt with
    | some d => .ok (d, s)
    | none =>
      match Policy._apply_redaction s.redactors prompt with
      | some d => .ok (d, s)
      | none => .ok (⟨"allow", prompt, "Safe, no action required"⟩, s)

/-! ## The serving layer (`src/server.py`) -/

/-- One history record built by `RequestHandler._log_to_history`. -/
structure HistoryEntry where
  timestamp : String
  user_id : String
  prompt_in : String
  action : String
  reason : String
deriving DecidableEq

/-- The capacity of `RequestHandler.history = deque(maxlen=100)`. -/
def historyMaxlen : Nat := 100

/-- One `append` on a `collections.deque` with the given `maxlen`
(oldest entries at the head): appending beyond capacity evicts from the
left. -/
def dequeAppend (maxlen : Nat) (h : List HistoryEntry) (e : HistoryEntry) :
    List HistoryEntry :=
  if maxlen < (h ++ [e]).length then (h ++ [e]).drop ((h ++ [e]).length - maxlen)
  else h ++ [e]

/-- `RequestHandler._log_to_history`. -/
def RequestHandler._log_to_history (history : List HistoryEntry)
    (timestamp user_id prompt : String) (d : Decision) :
    List HistoryEntry :=
  dequeAppend historyMaxlen history ⟨timestamp, user_id, prompt, d.action, d.reason⟩

/-- `RequestHandler.handle_reload`: 200 on success, 500 with
`"Failed to reload policy: " + str(e)` on any exception. -/
def RequestHandler.handle_reload (s : PolicyState) (fs : FileState)
    (provider : Option (String → Rat)) : (Nat × String) × PolicyState :=
  match Policy.load_policy s fs provider with
  | (.ok _, s2) => ((200, "Policy reloaded successfully"), s2)
  | (.error e, s2) => ((500, "Failed to reload policy: " ++ e.str), s2)

/-! ## Concrete sample configurations used by witnesses and
counterexamples -/

/-- A representative valid configuration: one banned keyword, the default
length cap, every redactor enabled, semantic blocking disabled. -/
def sampleRules : Rules :=
  { banned_keywords := some ["kill"],
    max_prompt_chars := some 200,
    redaction_rules := ⟨true, true, true, true⟩,
    semantic_blocking := ⟨false, [], 3 / 5⟩ }

/-- The policy state produced by loading `sampleRules`. -/
def sampleState : PolicyState :=
  (Policy.load_policy ⟨.nonDict, [], none⟩ (.parsedDict sampleRules) none).2

/-- A parsed configuration object that lacks the `banned_keywords` key. -/
def noKeyRules : Rules :=
  { banned_keywords := none,
    max_prompt_chars := none,
    redaction_rules := ⟨false, false, false, false⟩,
    semantic_blocking := ⟨false, [], 3 / 5⟩ }

/-- The policy state produced by loading `noKeyRules`. -/
def noKeyState : PolicyState :=
  (Policy.load_policy ⟨.nonDict, [], none⟩ (.parsedDict noKeyRules) none).2

/-- A state whose semantic blocker is configured but whose embedding
provider failed to load. -/
def semUnavailableState : PolicyState :=
  ⟨.dict sampleRules, [], some ⟨["uninstall the safety rails"], 3 / 5, none, none⟩⟩

/-! ## Helper lemmas -/

/-- Every decision `_check_blocking` produces is a `block` decision that
carries the original prompt. -/
theorem check_blocking_spec {rules : RulesVal} {prompt : String}
    {d : Decision} (h : Policy._check_blocking rules prompt = .ok (some d)) :
    d.action = "block" ∧ d.prompt_out = prompt := by
  unfold Policy._check_blocking at h
  cases rules with
  | nonDict => cases h
  | dict r =>
    simp only at h
    split at h
    · simp only [Except.ok.injEq, Option.some.injEq] at h
      subst h
      exact ⟨rfl, rfl⟩
    · split at h
      · cases h
      · split at h
        · cases h
        · simp only [Except.ok.injEq, Option.some.injEq] at h
          subst h
          exact ⟨rfl, rfl⟩

/-- Every decision `_check_semantic_blocking` produces is a `block`
decision that carries the original prompt. -/
theorem check_semantic_blocking_spec {sb : Option SemanticBlocker}
    {prompt : String} {d : Decision}
    (h : Policy._check_semantic_blocking sb prompt = some d) :
    d.action = "block" ∧ d.prompt_out = prompt := by
  unfold Policy._check_semantic_blocking at h
  cases sb with
  | none => cases h
  | some b =>
    simp only at h
    split at h
    · simp only [Option.some.injEq] at h
      subst h
      exact ⟨rfl, rfl⟩
    · cases h

/-- The first component of the redaction loop is the plain sequential
composition of the redactors. -/
theorem redactStep_foldl_fst (rs : List RedactorKind) :
    ∀ (t : String) (acc : List String),
      (rs.foldl redactStep (t, acc)).1 = redactionPipeline rs t := by
  induction rs with
  | nil => intro t acc; rfl
  | cons rd rs ih =>
    intro t acc
    simp only [List.foldl_cons, redactionPipeline, redactStep]
    by_cases hc : rd.redact_text t ≠ t
    · rw [if_pos hc]
      exact ih _ _
    · rw [if_neg hc]
      exact ih _ _

/-- Every decision `_apply_redaction` produces is a `redact` decision
whose `prompt_out` is the pipeline output on the prompt. -/
theorem apply_redaction_spec {rs : List RedactorKind} {prompt : String}
    {d : Decision} (h : Policy._apply_redaction rs prompt = some d) :
    d.action = "redact" ∧ d.prompt_out = redactionPipeline rs prompt := by
  unfold Policy._apply_redaction at h
  split at h
  · simp only [Option.some.injEq] at h
    subst h
    exact ⟨rfl, redactStep_foldl_fst rs prompt []⟩
  · cases h

/-- `infixCheck` decides list-infix containment. -/
theorem infixCheck_iff (n : List Char) :
    ∀ h : List Char, infixCheck n h = true ↔ n <:+: h := by
  intro h
  induction h with
  | nil => simp [infixCheck, List.isEmpty_iff]
  | cons b bs ih =>
    simp [infixCheck, List.infix_cons_iff, ih]

/-- One deque append keeps the buffer within its capacity. -/
theorem dequeAppend_length_le (h : List HistoryEntry) (e : HistoryEntry)
    (hh : h.length ≤ historyMaxlen) :
    (dequeAppend historyMaxlen h e).length ≤ historyMaxlen := by
  unfold dequeAppend
  split
  · simp only [List.length_drop]
    omega
  · simp only [List.length_append, List.length_cons, List.length_nil] at *
    omega

/-- Folding deque appends over a list of entries keeps exactly the
newest `historyMaxlen` of start-buffer-then-entries, in order. -/
theorem foldl_dequeAppend_eq (es : List HistoryEntry) :
    ∀ h : List HistoryEntry, h.length ≤ historyMaxlen →
      es.foldl (dequeAppend historyMaxlen) h
        = (h ++ es).drop (h.length + es.length - historyMaxlen) := by
  induction es with
  | nil =>
    intro h hh
    simp [Nat.sub_eq_zero_of_le hh]
  | cons e es ih =>
    intro h hh
    rw [List.foldl_cons, ih _ (dequeAppend_length_le h e hh)]
    unfold dequeAppend
    split
    next hlt =>
      have h100 : h.length = historyMaxlen := by
        simp only [List.length_append, List.length_cons, List.length_nil] at hlt
        omega
      have hdrop1 : (h ++ [e]).length - historyMaxlen = 1 := by
        simp only [List.length_append, List.length_cons, List.length_nil]
        omega
      rw [hdrop1]
      rw [← List.drop_append_of_le_length
        (by simp only [List.length_append, List.length_cons, List.length_nil]; omega)]
      rw [List.drop_drop]
      have hlen : ((h ++ [e]).drop 1).length = h.length := by
        simp only [List.length_drop, List.length_append, List.length_cons,
          List.length_nil]
        omega
      rw [hlen]
      have : (h ++ [e]) ++ es = h ++ e :: es := by
        rw [List.append_assoc]
        rfl
      rw [this]
      congr 1
      simp only [List.length_cons]
      omega
    next hge =>
      have hlt2 : h.length < historyMaxlen := by
        simp only [List.length_append, List.length_cons, List.length_nil,
          not_lt] at hge
        omega
      have : (h ++ [e]) ++ es = h ++ e :: es := by
        rw [List.append_assoc]
        rfl
      rw [this]
      congr 1
      simp only [List.length_append, List.length_cons, List.length_nil]
      omega

/-! ## Claims -/

/-- C1: For every prompt and every loaded configuration, if the prompt
triggers a hard block condition (length over `max_prompt_chars` or a
banned-keyword match, i.e. `_check_blocking` returns a decision) and also
contains a PII pattern that an enabled redactor would rewrite
(`_apply_redaction` returns a decision), then `evaluate_prompt` returns
the blocking decision, whose action is `block` and never `redact`: the
blocking check runs and returns before any redactor is applied. -/
theorem block_priority_over_redact (s : PolicyState) (prompt : String)
    (d dr : Decision)
    (hb : Policy._check_blocking s.rules prompt = .ok (some d))
    (_hr : Policy._apply_redaction s.redactors prompt = some dr) :
    Policy.evaluate_prompt s prompt = .ok d ∧ d.action = "block" ∧
      d.action ≠ "redact" := by
  have hspec := check_blocking_spec hb
  refine ⟨?_, hspec.1, ?_⟩
  · unfold Policy.evaluate_prompt
    rw [hb]
  · rw [hspec.1]
    decide

/-- Witness for C1 at a concrete blocked-and-redactable prompt. -/
theorem block_priority_over_redact_witness :
    Policy.evaluate_prompt sampleState "kill test@example.com" =
        .ok ⟨"block", "kill test@example.com",
          "Contains banned keywords: " ++ pyListRepr ["kill"]⟩ ∧
      ("block" : String) = "block" ∧ ("block" : String) ≠ "redact" :=
  block_priority_over_redact sampleState "kill test@example.com"
    ⟨"block", "kill test@example.com",
      "Contains banned keywords: " ++ pyListRepr ["kill"]⟩
    ⟨"redact", "kill <EMAIL>",
      "P.I.I. detected and redacted: " ++ pyListRepr ["Email"]⟩
    (by decide) (by decide)

/-- C9 (implicit): the length check runs and returns before any keyword
lookup: for every prompt whose length exceeds `max_prompt_chars`,
`evaluate_prompt` returns the length-block decision without reading the
`banned_keywords` entry — there is no hypothesis on `r.banned_keywords`,
so evaluation of an over-length prompt succeeds (no `KeyError`) even when
the loaded configuration lacks that key. -/
theorem length_block_before_keywords (s : PolicyState) (r : Rules)
    (prompt : String) (hd : s.rules = .dict r)
    (hlen : prompt.length > r.max_prompt_chars.getD DEFAULT_MAX_CHARS) :
    Policy.evaluate_prompt s prompt =
      .ok ⟨"block", prompt, "Prompt is too long. Max length is "
        ++ toString (r.max_prompt_chars.getD DEFAULT_MAX_CHARS)
        ++ " characters."⟩ := by
  have hcb : Policy._check_blocking s.rules prompt =
      .ok (some ⟨"block", prompt, "Prompt is too long. Max length is "
        ++ toString (r.max_prompt_chars.getD DEFAULT_MAX_CHARS)
        ++ " characters."⟩) := by
    rw [hd]
    unfold Policy._check_blocking
    simp only
    rw [if_pos hlen]
  unfold Policy.evaluate_prompt
  rw [hcb]

set_option maxRecDepth 16384 in
/-- Witness for C9: an over-length prompt against a configuration with
no `banned_keywords` key still evaluates to the length block. -/
theorem length_block_before_keywords_witness :
    Policy.evaluate_prompt noKeyState ⟨List.replicate 201 'a'⟩ =
      .ok ⟨"block", ⟨List.replicate 201 'a'⟩,
        "Prompt is too long. Max length is "
          ++ toString (noKeyRules.max_prompt_chars.getD DEFAULT_MAX_CHARS)
          ++ " characters."⟩ :=
  length_block_before_keywords noKeyState noKeyRules ⟨List.replicate 201 'a'⟩
    rfl (by decide)

/-- C10 (implicit): with no semantic blocker configured,
`evaluate_prompt` is deterministic and mutation-free: a first invocation
leaves the policy state (rules, redactors, semantic blocker) exactly as
it found it, and a second invocation on that state returns the same
decision. -/
theorem evaluate_deterministic_pure (s : PolicyState) (prompt : String)
    (hsem : s.semantic_blocker = none) (d1 : Decision) (s1 : PolicyState)
    (h1 : Policy.evaluatePromptWithState s prompt = .ok (d1, s1)) :
    s1 = s ∧ Policy.evaluatePromptWithState s1 prompt = .ok (d1, s1) := by
  have hs : s1 = s := by
    unfold Policy.evaluatePromptWithState at h1
    split at h1
    · cases h1
    · injection h1 with h2
      exact (Prod.mk.inj h2).2.symm
    · split at h1
      · injection h1 with h2
        exact (Prod.mk.inj h2).2.symm
      · split at h1
        · injection h1 with h2
          exact (Prod.mk.inj h2).2.symm
        · injection h1 with h2
          exact (Prod.mk.inj h2).2.symm
  subst hs
  exact ⟨rfl, h1⟩

/-- Witness for C10 at a concrete state and prompt. -/
theorem evaluate_deterministic_pure_witness :
    sampleState = sampleState ∧
    Policy.evaluatePromptWithState sampleState "hello" =
      .ok (⟨"allow", "hello", "Safe, no action required"⟩, sampleState) :=
  evaluate_deterministic_pure sampleState "hello" rfl
    ⟨"allow", "hello", "Safe, no action required"⟩ sampleState rfl

/-- C8: when the embedding provider is unavailable (`model is None`), the
semantic gate fails open: `check_blocking` returns `(False, 0.0)` without
raising, and — provided the hard-block stage found nothing — the overall
evaluation continues to the redaction stage (its result is the redaction
decision if the pipeline changed the text, the allow decision otherwise)
instead of failing. -/
theorem semantic_fail_open (b : SemanticBlocker) (hb : b.model = none)
    (s : PolicyState) (hs : s.semantic_blocker = some b) (text : String)
    (hnb : Policy._check_blocking s.rules text = .ok none) :
    b.check_blocking text = (false, 0) ∧
    Policy.evaluate_prompt s text =
      .ok ((Policy._apply_redaction s.redactors text).getD
        ⟨"allow", text, "Safe, no action required"⟩) := by
  have hcb : b.check_blocking text = (false, 0) := by
    unfold SemanticBlocker.check_blocking
    rw [hb]
  refine ⟨hcb, ?_⟩
  have hsem : Policy._check_semantic_blocking s.semantic_blocker text = none := by
    rw [hs]
    unfold Policy._check_semantic_blocking
    simp only [hcb]
    rfl
  unfold Policy.evaluate_prompt
  rw [hnb, hsem]
  cases hr : Policy._apply_redaction s.redactors text <;> simp [hr]

/-- Witness for C8: a configured semantic blocker whose model failed to
load lets a clean prompt through to the (empty) redaction stage. -/
theorem semantic_fail_open_witness :
    SemanticBlocker.check_blocking ⟨["uninstall the safety rails"], 3 / 5, none, none⟩ "hello"
        = (false, 0) ∧
    Policy.evaluate_prompt semUnavailableState "hello" =
      .ok ((Policy._apply_redaction semUnavailableState.redactors "hello").getD
        ⟨"allow", "hello", "Safe, no action required"⟩) :=
  semantic_fail_open ⟨["uninstall the safety rails"], 3 / 5, none, none⟩ rfl
    semUnavailableState rfl "hello" (by decide)

/-- C3 (amended): loading fails exactly when the policy file is missing,
is not valid JSON, or parses to a non-object document; in particular a
parsed object lacking the `banned_keywords` key loads successfully — the
missing key is not validated at load time (it only surfaces later, as a
`KeyError` during evaluation). -/
theorem load_policy_failure_iff (s : PolicyState)
    (provider : Option (String → Rat)) (fs : FileState) :
    (∃ e, (Policy.load_policy s fs provider).1 = .error e) ↔
      (fs = .missing ∨ fs = .invalidJson ∨ fs = .parsedNonDict) := by
  cases fs <;> simp [Policy.load_policy]

/-- C3 counterexample: the claim says a configuration lacking
`banned_keywords` is rejected by `load` and that every other case
succeeds; in fact such a configuration loads fine, while a valid
non-object JSON document fails. -/
theorem load_accepts_missing_banned_keywords :
    (Policy.load_policy noKeyState (.parsedDict noKeyRules) none).1 = .ok () ∧
    (Policy.load_policy sampleState .parsedNonDict none).1 =
      .error .nonDictConfig :=
  ⟨rfl, rfl⟩

/-- C5 (amended): when reloading fails because the policy file is missing
or its contents are not valid JSON (the two cases `load_policy` itself
anticipates), the failure is atomic: `/reload` answers 500, the previous
state (rules, redactors, semantic blocker) stays fully operative, and
`evaluate_prompt` returns the identical decision for the same prompt
before and after the failed reload.  (A reload that parses a valid
non-object document is *not* atomic — see the counterexample.) -/
theorem reload_failure_preserves_state (s : PolicyState)
    (provider : Option (String → Rat)) (fs : FileState) (prompt : String)
    (hfs : fs = .missing ∨ fs = .invalidJson) :
    (RequestHandler.handle_reload s fs provider).1.1 = 500 ∧
    (RequestHandler.handle_reload s fs provider).2 = s ∧
    Policy.evaluate_prompt (RequestHandler.handle_reload s fs provider).2 prompt
      = Policy.evaluate_prompt s prompt := by
  rcases hfs with rfl | rfl <;> exact ⟨rfl, rfl, rfl⟩

/-- Witness for C5 at a missing policy file. -/
theorem reload_failure_preserves_state_witness :
    (RequestHandler.handle_reload sampleState .missing none).1.1 = 500 ∧
    (RequestHandler.handle_reload sampleState .missing none).2 = sampleState ∧
    Policy.evaluate_prompt
        (RequestHandler.handle_reload sampleState .missing none).2 "hi"
      = Policy.evaluate_prompt sampleState "hi" :=
  reload_failure_preserves_state sampleState none .missing "hi" (Or.inl rfl)

/-- C5 counterexample: a reload that parses a valid non-object JSON
document (for instance a top-level list) reports 500, but has already
replaced `self.rules`, so the previously active configuration is no
longer operative: the same prompt that was allowed before the failed
reload now raises instead of evaluating. -/
theorem reload_nondict_not_atomic :
    (RequestHandler.handle_reload sampleState .parsedNonDict none).1.1 = 500 ∧
    Policy.evaluate_prompt
        (RequestHandler.handle_reload sampleState .parsedNonDict none).2 "hi"
      ≠ Policy.evaluate_prompt sampleState "hi" := by
  constructor
  · rfl
  · decide

/-- C2 (amended): provided the loaded rules are an object containing the
`banned_keywords` key, `evaluate_prompt` returns exactly one decision,
its action is one of allow/block/redact, its `prompt_out` is the original
input for block and allow, and the redaction-pipeline output for redact.
(Without that key a short prompt makes `evaluate_prompt` raise `KeyError`
instead of returning a decision — see the counterexample.) -/
theorem evaluate_returns_single_decision (s : PolicyState) (r : Rules)
    (kws : List String) (prompt : String) (hd : s.rules = .dict r)
    (hk : r.banned_keywords = some kws) :
    ∃ d, Policy.evaluate_prompt s prompt = .ok d ∧
      (d.action = "allow" ∨ d.action = "block" ∨ d.action = "redact") ∧
      ((d.action = "block" ∨ d.action = "allow") → d.prompt_out = prompt) ∧
      (d.action = "redact" →
        d.prompt_out = redactionPipeline s.redactors prompt) := by
  unfold Policy.evaluate_prompt
  cases hcb : Policy._check_blocking s.rules prompt with
  | error e =>
    exfalso
    rw [hd] at hcb
    unfold Policy._check_blocking at hcb
    simp only at hcb
    split at hcb
    · cases hcb
    · rw [hk] at hcb
      simp only at hcb
      split at hcb
      · cases hcb
      · cases hcb
  | ok o =>
    cases o with
    | some d =>
      have hspec := check_blocking_spec hcb
      refine ⟨d, rfl, Or.inr (Or.inl hspec.1), fun _ => hspec.2, fun hc => ?_⟩
      rw [hspec.1] at hc
      exact absurd hc (by decide)
    | none =>
      cases hsem : Policy._check_semantic_blocking s.semantic_blocker prompt with
      | some d =>
        have hspec := check_semantic_blocking_spec hsem
        refine ⟨d, rfl, Or.inr (Or.inl hspec.1), fun _ => hspec.2, fun hc => ?_⟩
        rw [hspec.1] at hc
        exact absurd hc (by decide)
      | none =>
        cases hred : Policy._apply_redaction s.redactors prompt with
        | some d =>
          have hspec := apply_redaction_spec hred
          refine ⟨d, rfl, Or.inr (Or.inr hspec.1), fun hc => ?_, fun _ => hspec.2⟩
          rw [hspec.1] at hc
          rcases hc with hc | hc <;> exact absurd hc (by decide)
        | none =>
          exact ⟨⟨"allow", prompt, "Safe, no action required"⟩, rfl,
            Or.inl rfl, fun _ => rfl, fun hc => by simp at hc⟩

/-- Witness for C2 at a prompt that gets redacted. -/
theorem evaluate_returns_single_decision_witness :
    ∃ d, Policy.evaluate_prompt sampleState "my email is test@example.com"
        = .ok d ∧
      (d.action = "allow" ∨ d.action = "block" ∨ d.action = "redact") ∧
      ((d.action = "block" ∨ d.action = "allow") →
        d.prompt_out = "my email is test@example.com") ∧
      (d.action = "redact" →
        d.prompt_out = redactionPipeline sampleState.redactors
          "my email is test@example.com") :=
  evaluate_returns_single_decision sampleState sampleRules ["kill"]
    "my email is test@example.com" rfl rfl

/-- C2 counterexample: a configuration the service happily loads — a JSON
object without the `banned_keywords` key — makes `evaluate_prompt` raise
`KeyError` on a short prompt, so it does not hold for *every* loaded
configuration that exactly one allow/block/redact decision is returned. -/
theorem evaluate_keyerror_counterexample :
    (Policy.load_policy noKeyState (.parsedDict noKeyRules) none).1 = .ok () ∧
    Policy.evaluate_prompt noKeyState "hi" =
      .error (.keyError "banned_keywords") :=
  ⟨rfl, rfl⟩

/-- C4 (amended): no placeholder token matches any rule's pattern — every
placeholder (`<EMAIL>`, `<PHONE>`, `<SECRET>`, `<CARD>`) is left
unchanged by every redactor and hence by the pipeline for every set of
enabled redactors.  The claimed *idempotence of the full pipeline on
arbitrary text* does not follow and is false: a replacement can create a
word boundary that lets the phone rule match on a second pass — see the
counterexample. -/
theorem redaction_placeholders_fixed (rs : List RedactorKind) (p : String)
    (hp : p ∈ ["<EMAIL>", "<PHONE>", "<SECRET>", "<CARD>"]) :
    redactionPipeline rs p = p := by
  induction rs with
  | nil => rfl
  | cons rd rs ih =>
    have hstep : rd.redact_text p = p := by
      fin_cases hp <;> cases rd <;> decide
    unfold redactionPipeline at ih ⊢
    rw [List.foldl_cons, hstep]
    exact ih

/-- Witness for C4 (amended) at a concrete redactor list and placeholder. -/
theorem redaction_placeholders_fixed_witness :
    redactionPipeline [RedactorKind.Email, RedactorKind.Phone,
      RedactorKind.Secret, RedactorKind.CreditCard] "<EMAIL>" = "<EMAIL>" :=
  redaction_placeholders_fixed
    [RedactorKind.Email, RedactorKind.Phone,
      RedactorKind.Secret, RedactorKind.CreditCard] "<EMAIL>" (by decide)

/-- C4 counterexample: with every redactor enabled (the configured order
email, phone, secret, credit-card), the pipeline is not idempotent.  On
`"123-456-7890SECRET{x}"` the first pass only redacts the secret (the
phone digits are followed by the word character `S`, so `\b` fails); the
replacement `<SECRET>` ends the digit run at a non-word character, so the
second pass redacts the phone number too. -/
theorem redaction_pipeline_not_idempotent :
    redactionPipeline sampleState.redactors
        (redactionPipeline sampleState.redactors "123-456-7890SECRET\x7bx\x7d")
      ≠ redactionPipeline sampleState.redactors "123-456-7890SECRET\x7bx\x7d" := by
  decide

/-- C6: the history buffer is a bounded FIFO of capacity 100: (a) from
any in-capacity start, any sequence of appends keeps the length within
the capacity; (b) from empty, a sequence of appends retains exactly the
newest `maxlen` entries in insertion (chronological) order; (c) after
`capacity + 1` appends the buffer is exactly the last `capacity` entries
oldest-to-newest, and (for pairwise-distinct entries) the first-appended
entry is absent. -/
theorem history_bounded_fifo (h es : List HistoryEntry)
    (hh : h.length ≤ historyMaxlen) :
    (es.foldl (dequeAppend historyMaxlen) h).length ≤ historyMaxlen ∧
    es.foldl (dequeAppend historyMaxlen) []
      = es.drop (es.length - historyMaxlen) ∧
    (es.length = historyMaxlen + 1 →
      es.foldl (dequeAppend historyMaxlen) [] = es.drop 1 ∧
      ∀ e0, es.Nodup → es.head? = some e0 →
        e0 ∉ es.foldl (dequeAppend historyMaxlen) []) := by
  have hempty : ([] : List HistoryEntry).length ≤ historyMaxlen := by decide
  have hnil := foldl_dequeAppend_eq es [] hempty
  simp only [List.nil_append, List.length_nil, Nat.zero_add] at hnil
  refine ⟨?_, hnil, fun hlen => ?_⟩
  · rw [foldl_dequeAppend_eq es h hh]
    simp only [List.length_drop, List.length_append]
    omega
  · have hdrop : es.length - historyMaxlen = 1 := by
      rw [hlen]
      omega
    rw [hdrop] at hnil
    refine ⟨hnil, fun e0 hnd hhead => ?_⟩
    rw [hnil]
    cases es with
    | nil => cases hhead
    | cons a t =>
      simp only [List.head?_cons, Option.some.injEq] at hhead
      subst hhead
      simp only [List.drop_succ_cons, List.drop_zero]
      exact (List.nodup_cons.mp hnd).1

/-- A history entry tagged with its append index. -/
def mkEntry (i : Nat) : HistoryEntry :=
  ⟨Nat.repr i, "userA", "promptA", "allow", "ok"⟩

/-- `capacity + 1` distinct history entries. -/
def mkEs : List HistoryEntry := (List.range (historyMaxlen + 1)).map mkEntry

/-- Witness for C6: 101 appends from empty keep exactly the final 100
entries, oldest first. -/
theorem history_bounded_fifo_witness :
    mkEs.foldl (dequeAppend historyMaxlen) [] = mkEs.drop 1 :=
  ((history_bounded_fifo [] mkEs (by decide)).2.2
    (by simp [mkEs, historyMaxlen])).1

/-- C7: keyword blocking is case-insensitive substring matching — when
the length gate does not fire, `_check_blocking` produces a (keyword)
block decision exactly when some configured keyword, case-folded, occurs
as a contiguous substring of the case-folded prompt; and the reason of
that decision lists every matched keyword (the full filtered list), not
only the first. -/
theorem keyword_block_iff (r : Rules) (prompt : String) (kws : List String)
    (hk : r.banned_keywords = some kws)
    (hlen : ¬ prompt.length > r.max_prompt_chars.getD DEFAULT_MAX_CHARS) :
    ((∃ d, Policy._check_blocking (.dict r) prompt = .ok (some d)) ↔
      ∃ k ∈ kws, (strLower k).data <:+: (strLower prompt).data) ∧
    ∀ d, Policy._check_blocking (.dict r) prompt = .ok (some d) →
      d.reason = "Contains banned keywords: "
        ++ pyListRepr (kws.filter fun k => pyIn (strLower k) (strLower prompt)) := by
  have hpy : ∀ k : String,
      pyIn (strLower k) (strLower prompt) = true ↔
        (strLower k).data <:+: (strLower prompt).data :=
    fun k => infixCheck_iff (strLower k).data (strLower prompt).data
  have hcb : Policy._check_blocking (.dict r) prompt =
      (if (kws.filter fun k => pyIn (strLower k) (strLower prompt)).isEmpty
        then .ok none
        else .ok (some ⟨"block", prompt, "Contains banned keywords: "
          ++ pyListRepr (kws.filter fun k =>
              pyIn (strLower k) (strLower prompt))⟩)) := by
    unfold Policy._check_blocking
    simp only
    rw [if_neg hlen, hk]
  by_cases hf : (kws.filter fun k => pyIn (strLower k) (strLower prompt)).isEmpty
  · rw [hf, if_pos rfl] at hcb
    constructor
    · constructor
      · rintro ⟨d, hd⟩
        rw [hcb] at hd
        cases hd
      · rintro ⟨k, hkmem, hinf⟩
        exfalso
        rw [List.isEmpty_iff, List.filter_eq_nil_iff] at hf
        exact hf k hkmem ((hpy k).mpr hinf)
    · intro d hd
      rw [hcb] at hd
      cases hd
  · rw [if_neg hf] at hcb
    constructor
    · constructor
      · intro _
        cases hfl : kws.filter fun k => pyIn (strLower k) (strLower prompt) with
        | nil => rw [hfl] at hf; exact absurd rfl hf
        | cons a t =>
          have hmem : a ∈ kws.filter fun k =>
              pyIn (strLower k) (strLower prompt) := by
            rw [hfl]; exact List.mem_cons_self a t
          have := List.mem_filter.mp hmem
          exact ⟨a, this.1, (hpy a).mp this.2⟩
      · intro _
        exact ⟨_, hcb⟩
    · intro d hd
      rw [hcb] at hd
      simp only [Except.ok.injEq, Option.some.injEq] at hd
      subst hd
      rfl

/-- Witness for C7 at a spec scenario: `banned_keywords=["kill"]` and a
prompt containing `KILl`. -/
theorem keyword_block_iff_witness :
    (Decision.mk "block" "I hate youUUUUU and i want to KILl someone"
        ("Contains banned keywords: " ++ pyListRepr ["kill"])).reason
      = "Contains banned keywords: "
        ++ pyListRepr (["kill"].filter fun k =>
            pyIn (strLower k) (strLower "I hate youUUUUU and i want to KILl someone")) :=
  (keyword_block_iff sampleRules "I hate youUUUUU and i want to KILl someone"
      ["kill"] rfl (by decide)).2
    ⟨"block", "I hate youUUUUU and i want to KILl someone",
      "Contains banned keywords: " ++ pyListRepr ["kill"]⟩ (by decide)
